import Mathlib

/-!
Shallow embedding of the wall-Editor repository's wall-editing core.

The `Viewer` class owns the wall registry (`walls : Wall[]`, a fresh-id
counter), the selection/highlight bookkeeping and the two-click drawing
state machine (`isDrawing`, `startPoint`, `previewLine`, `isDrawingMode`).
JS numbers are modelled as exact rationals for coordinates; the derived
`length`/`angle` fields are real numbers (`Real.sqrt`, and `Math.atan2`
via the complex argument).  The rendering library (scenes, meshes,
raycasting, cameras) is an external collaborator: raycast results and the
screen-to-world mapper's output enter the event handlers as parameters,
and `zoomExtend` is modelled as the camera frustum it computes.

`Document2D` / `CreateWallCommand` are the repository's second,
command-based implementation of wall drawing; `Document2D.drawWall` is
embedded as well (it derives the wall id from `Date.now()`, passed in
here as an explicit clock value).
-/

/-- A three.js `Vector3` as used by the editor: exact rational coordinates. -/
structure Point where
  x : ℚ
  y : ℚ
  z : ℚ
deriving DecidableEq

/-- `Vector3.distanceTo`: Euclidean distance over all three coordinates. -/
noncomputable def dist3 (a b : Point) : ℝ :=
  Real.sqrt (((b.x - a.x : ℚ) : ℝ) ^ 2 + ((b.y - a.y : ℚ) : ℝ) ^ 2 +
    ((b.z - a.z : ℚ) : ℝ) ^ 2)

/-- `Math.atan2 y x`, modelled as the argument of the complex number `x + y*I`
(same piecewise definition and the same convention `atan2 0 0 = 0`). -/
noncomputable def atan2 (y x : ℝ) : ℝ := Complex.arg ⟨x, y⟩

/-- The `Wall` interface of `Viewer.ts`.  The optional `selected?` /
`highlighted?` flags are booleans (`undefined` behaves as `false`). -/
structure Wall where
  type : String
  start : Point
  «end» : Point
  angle : ℝ
  length : ℝ
  id : String
  selected : Bool
  highlighted : Bool

/-- The `Viewer` fields that carry editor state (rendering objects such as
scenes, cameras, meshes and dimension labels are presentation and live in
the external collaborator; the preview line is kept as its two endpoints). -/
structure ViewerState where
  is2D : Bool
  walls : List Wall
  wallCounter : Nat
  isDrawing : Bool
  startPoint : Option Point
  previewLine : Option (Point × Point)
  selectedWall : Option String
  isDrawingMode : Bool

namespace Viewer

/-- Field initializers of the `Viewer` class. -/
def initialState : ViewerState :=
  { is2D := true, walls := [], wallCounter := 0, isDrawing := false,
    startPoint := none, previewLine := none, selectedWall := none,
    isDrawingMode := true }

/-- The id template of `Viewer.addWall`: `wall_${this.wallCounter}`. -/
def mkId (n : Nat) : String := "wall_" ++ toString n

/-- A concrete one-wall registry state, used as the evaluation point of
the invariant theorems. -/
def oneWallState : ViewerState :=
  { initialState with
    walls := [{ type := "wall", start := ⟨0, 0, 0⟩, «end» := ⟨1, 0, 0⟩,
                angle := 0, length := 1, id := "wall_0",
                selected := false, highlighted := false }],
    wallCounter := 1 }

/-- A concrete state with a draw gesture in progress, used as the
evaluation point of the gesture theorems. -/
def midGestureState : ViewerState :=
  { oneWallState with
    isDrawing := true
    startPoint := some ⟨1, 0, 0⟩
    previewLine := some (⟨1, 0, 0⟩, ⟨2, 2, 0⟩) }

/-- `Viewer.addWall(start, end)`: computes `length`/`angle`, assigns the id
`wall_${wallCounter++}`, pushes the wall and returns it (mesh creation and
the wall-list rebuild are presentation effects). -/
noncomputable def addWall (st : ViewerState) (start «end» : Point) :
    ViewerState × Wall :=
  let length := dist3 start «end»
  let angle := atan2 ((«end».y - start.y : ℚ) : ℝ) ((«end».x - start.x : ℚ) : ℝ)
  let wall : Wall :=
    { type := "wall", start := start, «end» := «end», angle := angle,
      length := length, id := mkId st.wallCounter,
      selected := false, highlighted := false }
  ({ st with walls := st.walls ++ [wall], wallCounter := st.wallCounter + 1 },
   wall)

/-- The per-wall effect of `Viewer.clearWallStates`. -/
def clearFlags (w : Wall) : Wall := { w with selected := false, highlighted := false }

/-- `Viewer.clearWallStates()`: clears both flags on every wall and forgets
the selected-wall id. -/
def clearWallStates (st : ViewerState) : ViewerState :=
  { st with walls := st.walls.map clearFlags, selectedWall := none }

/-- `Viewer.selectWall(id)`: clears all wall states first, then walks the
walls setting `selected` exactly on the matching id (recording it in
`selectedWall` when a match exists). -/
def selectWall (st : ViewerState) (id : String) : ViewerState :=
  let st1 := clearWallStates st
  { st1 with
    walls := st1.walls.map (fun w =>
      if w.id = id then { w with selected := true }
      else { w with selected := false }),
    selectedWall := if st1.walls.any (fun w => w.id == id) then some id
      else st1.selectedWall }

/-- `Viewer.highlightWall(id)`: sets `highlighted` on the matching wall and
clears it elsewhere, touching a wall only when its state actually changes. -/
def highlightWall (st : ViewerState) (id : String) : ViewerState :=
  { st with walls := st.walls.map (fun w =>
      if w.id = id then (if w.highlighted then w else { w with highlighted := true })
      else (if w.highlighted then { w with highlighted := false } else w)) }

/-- `Viewer.clearHighlight()`: drops the highlight from walls that are
highlighted but not selected. -/
def clearHighlight (st : ViewerState) : ViewerState :=
  { st with walls := st.walls.map (fun w =>
      if w.highlighted && !w.selected then { w with highlighted := false } else w) }

/-- `Viewer.deleteSelectedWalls()`: removes every selected wall from the
array (meshes and dimension lines are presentation), then clears wall
states and re-fits the view. -/
def deleteSelectedWalls (st : ViewerState) : ViewerState :=
  clearWallStates { st with walls := st.walls.filter (fun w => !w.selected) }

/-- `Viewer.clearAllWalls()`: empties the walls array, then clears
selection/highlight bookkeeping. -/
def clearAllWalls (st : ViewerState) : ViewerState :=
  clearWallStates { st with walls := [] }

/-- `Viewer.cleanupDrawing()`: removes the preview line and resets the
in-progress gesture. -/
def cleanupDrawing (st : ViewerState) : ViewerState :=
  { st with previewLine := none, isDrawing := false, startPoint := none }

/-- `Viewer.toggleDrawingMode()`: flips the mode and, when drawing mode was
turned off, cleans up any ongoing drawing. -/
def toggleDrawingMode (st : ViewerState) : ViewerState :=
  let st1 := { st with isDrawingMode := !st.isDrawingMode }
  if !st1.isDrawingMode then cleanupDrawing st1 else st1

/-- `Viewer.getIntersectionPoint()`.  In the 2D view the mouse is
unprojected onto the `z = 0` plane (always succeeds; `unprojected` is the
camera unprojection, an external computation).  In the 3D view the result
is the raycaster's ray/plane intersection, which is `none` when the ray is
parallel to the plane. -/
def getIntersectionPoint (is2D : Bool) (unprojected : Point)
    (rayPlaneHit : Option Point) : Option Point :=
  if is2D then some { x := unprojected.x, y := unprojected.y, z := 0 }
  else rayPlaneHit

/-- `Viewer.onMouseDown(e)`.  `intersection` is the value of
`getIntersectionPoint()` for this event and `wallHit` the id of the
nearest wall mesh under the pointer (`getWallIntersection()`), both
computed by the rendering collaborator.  In the second-click branch the
source dereferences `this.startPoint!`; on the states the handler
reaches, `isDrawing` implies `startPoint` is set, and the embedding
returns the state unchanged on the impossible `none`. -/
noncomputable def onMouseDown (st : ViewerState) (button : Nat)
    (shiftKey : Bool) (intersection : Option Point)
    (wallHit : Option String) : ViewerState :=
  if !st.is2D then
    match wallHit with
    | some id => selectWall st id
    | none => clearWallStates st
  else if st.isDrawingMode then
    if button ≠ 0 then st
    else
      match intersection with
      | none => st
      | some p =>
        if !st.isDrawing then
          { st with isDrawing := true, startPoint := some p,
                    previewLine := some (p, p) }
        else
          match st.startPoint with
          | none => st
          | some sp =>
            let st1 := (addWall st sp p).1
            let st1 := { st1 with previewLine := none }
            if shiftKey then
              { st1 with startPoint := some p, previewLine := some (p, p) }
            else
              { st1 with isDrawing := false, startPoint := none }
  else
    if button = 0 then
      match wallHit with
      | some id => selectWall st id
      | none => clearWallStates st
    else st

/-- `Viewer.onMouseMove(e)`: hover highlighting in the 2D view, then the
preview-line far-endpoint update while a gesture is in progress. -/
def onMouseMove (st : ViewerState) (intersection : Option Point)
    (wallHit : Option String) : ViewerState :=
  let st1 :=
    if st.is2D then
      match wallHit with
      | some id => highlightWall st id
      | none => if !st.isDrawing then clearHighlight st else st
    else st
  if st1.is2D && st1.isDrawingMode && st1.isDrawing && st1.startPoint.isSome
      && st1.previewLine.isSome then
    match intersection with
    | some p => { st1 with previewLine := st1.previewLine.map (fun pl => (pl.1, p)) }
    | none => st1
  else st1

end Viewer

/-- The editor-state fields of `Document2D` (the command-based second
implementation): the walls array and the single highlighted/selected ids. -/
structure Doc2DState where
  walls : List Wall
  highlightedWall : Option String
  selectedWall : Option String

namespace Document2D

/-- Field initializers of `Document2D`. -/
def initial : Doc2DState :=
  { walls := [], highlightedWall := none, selectedWall := none }

/-- `Document2D.drawWall(start, end)`: length and angle are computed from a
`Vector2` (the x/y components only); the id is `wall_${Date.now()}`, with
the current clock value passed in as `now`.  The `Wall` literal leaves the
optional `selected`/`highlighted` flags undefined (falsy). -/
noncomputable def drawWall (doc : Doc2DState) (now : Nat) (start «end» : Point) :
    Doc2DState × Wall :=
  let length := Real.sqrt (((«end».x - start.x : ℚ) : ℝ) ^ 2 +
    ((«end».y - start.y : ℚ) : ℝ) ^ 2)
  let angle := atan2 ((«end».y - start.y : ℚ) : ℝ) ((«end».x - start.x : ℚ) : ℝ)
  let wallId := "wall_" ++ toString now
  let wall : Wall :=
    { type := "wall", start := start, «end» := «end», angle := angle,
      length := length, id := wallId, selected := false, highlighted := false }
  ({ doc with walls := doc.walls ++ [wall] }, wall)

end Document2D

/-- A three.js `Vector2` with exact rational coordinates. -/
structure Vec2 where
  x : ℚ
  y : ℚ
deriving DecidableEq

/-- A three.js `Box2` (axis-aligned, `min`/`max` corners). -/
structure Box2 where
  min : Vec2
  max : Vec2
deriving DecidableEq

/-- `Box2.expandByPoint`: grow the box to contain a point. -/
def Box2.expandByPoint (b : Box2) (p : Vec2) : Box2 :=
  ⟨⟨Min.min b.min.x p.x, Min.min b.min.y p.y⟩,
   ⟨Max.max b.max.x p.x, Max.max b.max.y p.y⟩⟩

/-- `Box2.setFromPoints` on a nonempty list of points (the empty case never
arises: the caller guards on `walls.length > 0`). -/
def Box2.setFromPoints (p : Vec2) (ps : List Vec2) : Box2 :=
  ps.foldl Box2.expandByPoint ⟨p, p⟩

/-- `Box2.expandByVector`: pad the box by `v` on each side. -/
def Box2.expandByVector (b : Box2) (v : Vec2) : Box2 :=
  ⟨⟨b.min.x - v.x, b.min.y - v.y⟩, ⟨b.max.x + v.x, b.max.y + v.y⟩⟩

/-- `Box2.getSize`. -/
def Box2.getSize (b : Box2) : Vec2 := ⟨b.max.x - b.min.x, b.max.y - b.min.y⟩

/-- `Box2.getCenter`. -/
def Box2.getCenter (b : Box2) : Vec2 :=
  ⟨(b.min.x + b.max.x) / 2, (b.min.y + b.max.y) / 2⟩

/-- The orthographic camera frustum that `Viewer.zoomExtend` writes in the
2D branch (`left`/`right`/`top`/`bottom`). -/
structure Camera2D where
  left : ℚ
  right : ℚ
  top : ℚ
  bottom : ℚ
deriving DecidableEq

namespace Viewer

/-- The 2D endpoints pushed by `zoomExtend`: both ends of every wall,
mapped to `Vector2 (p.x, p.y)`. -/
def wallEndpoints2D (walls : List Wall) : List Vec2 :=
  walls.flatMap (fun w => [⟨w.start.x, w.start.y⟩, ⟨w.«end».x, w.«end».y⟩])

/-- The `targetBox` of `Viewer.zoomExtend`'s 2D branch: the bounding box of
all wall endpoints (or the 100 x 100 grid extent when there are no walls,
i.e. no endpoints), expanded by `getSize() * 0.1` on each side. -/
def zoomTargetBox (walls : List Wall) : Box2 :=
  match wallEndpoints2D walls with
  | [] =>
    let gridExtent : ℚ := 100
    let box : Box2 := ⟨⟨-gridExtent / 2, -gridExtent / 2⟩,
                       ⟨gridExtent / 2, gridExtent / 2⟩⟩
    let padding : Vec2 := ⟨box.getSize.x * (1 / 10), box.getSize.y * (1 / 10)⟩
    box.expandByVector padding
  | p :: ps =>
    let box := Box2.setFromPoints p ps
    let padding : Vec2 := ⟨box.getSize.x * (1 / 10), box.getSize.y * (1 / 10)⟩
    box.expandByVector padding

/-- The 2D branch of `Viewer.zoomExtend()`: fit the padded target box into
the viewport, letting the limiting dimension dictate the other via the
aspect ratio, and write the camera frustum around the box center. -/
def zoomExtend2D (walls : List Wall) (aspect : ℚ) : Camera2D :=
  let targetBox := zoomTargetBox walls
  let center := targetBox.getCenter
  let size := targetBox.getSize
  let viewWidth := size.x
  let viewHeight := size.y
  let dims : ℚ × ℚ :=
    if viewWidth / aspect > viewHeight then (viewWidth, viewWidth / aspect)
    else (viewHeight * aspect, viewHeight)
  { left := center.x - dims.1 / 2, right := center.x + dims.1 / 2,
    top := center.y + dims.2 / 2, bottom := center.y - dims.2 / 2 }

end Viewer

/-- A point (x, y) lies inside a camera frustum. -/
def Camera2D.containsXY (cam : Camera2D) (x y : ℚ) : Prop :=
  cam.left ≤ x ∧ x ≤ cam.right ∧ cam.bottom ≤ y ∧ y ≤ cam.top

/-- A whole box lies inside a camera frustum. -/
def Camera2D.containsBox (cam : Camera2D) (b : Box2) : Prop :=
  cam.left ≤ b.min.x ∧ b.max.x ≤ cam.right ∧ cam.bottom ≤ b.min.y ∧
    b.max.y ≤ cam.top

/-- At most one wall in a list carries `selected = true`. -/
def atMostOneSelected (walls : List Wall) : Prop :=
  walls.countP (fun w => w.selected) ≤ 1

/-- At most one wall in a list carries `highlighted = true`. -/
def atMostOneHighlighted (walls : List Wall) : Prop :=
  walls.countP (fun w => w.highlighted) ≤ 1

/-- The wall ids of a list are pairwise distinct. -/
def idsNodup (walls : List Wall) : Prop :=
  (walls.map (fun w => w.id)).Nodup

instance (walls : List Wall) : Decidable (atMostOneSelected walls) := by
  unfold atMostOneSelected; infer_instance

instance (walls : List Wall) : Decidable (atMostOneHighlighted walls) := by
  unfold atMostOneHighlighted; infer_instance

instance (walls : List Wall) : Decidable (idsNodup walls) := by
  unfold idsNodup; infer_instance

instance (cam : Camera2D) (x y : ℚ) : Decidable (cam.containsXY x y) := by
  unfold Camera2D.containsXY; infer_instance

instance (cam : Camera2D) (b : Box2) : Decidable (cam.containsBox b) := by
  unfold Camera2D.containsBox; infer_instance

/-! Basic facts about the derived geometry. -/

lemma dist3_self (p : Point) : dist3 p p = 0 := by
  simp [dist3]

lemma atan2_zero_zero : atan2 0 0 = 0 := by
  have h : (⟨0, 0⟩ : ℂ) = 0 := by
    apply Complex.ext <;> simp
  simp only [atan2, h, Complex.arg_zero]

/-! C2: the claim says a degenerate `addWall(P, P)` call leaves the registry
unchanged; the source has no such guard. -/

/-- C2 counterexample: `addWall` on the empty registry with coincident
start and end points changes the registry size from 0 to 1, so the claim
"no entry is added" is false at this concrete input. -/
theorem C2_degenerate_addWall_counterexample :
    (Viewer.addWall Viewer.initialState ⟨0, 0, 0⟩ ⟨0, 0, 0⟩).1.walls.length ≠
      Viewer.initialState.walls.length := by
  decide

/-- C2 (amended): `addWall` does not special-case `start == end`: the
degenerate wall is appended like any other (the registry grows by exactly
one entry, with `length = 0` and `angle = atan2 0 0 = 0`), and no error is
raised. -/
theorem C2_degenerate_addWall_appends (st : ViewerState) (P : Point) :
    (Viewer.addWall st P P).1.walls = st.walls ++ [(Viewer.addWall st P P).2] ∧
    (Viewer.addWall st P P).1.walls.length = st.walls.length + 1 ∧
    (Viewer.addWall st P P).2.length = 0 ∧
    (Viewer.addWall st P P).2.angle = 0 := by
  refine ⟨rfl, by simp [Viewer.addWall], ?_, ?_⟩
  · show dist3 P P = 0
    exact dist3_self P
  · show atan2 ((P.y - P.y : ℚ) : ℝ) ((P.x - P.x : ℚ) : ℝ) = 0
    simpa using atan2_zero_zero

/-! C3: stored `length`/`angle` of every committed wall. -/

/-- C3: every wall returned by `addWall` (and appended to the registry)
stores `length` equal to the Euclidean distance between `start` and `end`
and `angle` equal to `atan2 (end.y - start.y) (end.x - start.x)`; in
particular `addWall (0,0,0) (3,4,0)` yields `length = 5` and
`angle = atan2 4 3`. -/
theorem C3_addWall_length_angle :
    (∀ (st : ViewerState) (s e : Point),
      (Viewer.addWall st s e).2.length = dist3 s e ∧
      (Viewer.addWall st s e).2.angle =
        atan2 ((e.y - s.y : ℚ) : ℝ) ((e.x - s.x : ℚ) : ℝ) ∧
      (Viewer.addWall st s e).2.start = s ∧
      (Viewer.addWall st s e).2.«end» = e ∧
      (Viewer.addWall st s e).1.walls = st.walls ++ [(Viewer.addWall st s e).2]) ∧
    (Viewer.addWall Viewer.initialState ⟨0, 0, 0⟩ ⟨3, 4, 0⟩).2.length = 5 ∧
    (Viewer.addWall Viewer.initialState ⟨0, 0, 0⟩ ⟨3, 4, 0⟩).2.angle = atan2 4 3 := by
  refine ⟨fun st s e => ⟨rfl, rfl, rfl, rfl, rfl⟩, ?_, ?_⟩
  · show dist3 ⟨0, 0, 0⟩ ⟨3, 4, 0⟩ = 5
    have h25 : ((3 - 0 : ℚ) : ℝ) ^ 2 + ((4 - 0 : ℚ) : ℝ) ^ 2 +
        ((0 - 0 : ℚ) : ℝ) ^ 2 = 5 ^ 2 := by
      push_cast
      norm_num
    rw [dist3]
    rw [show ((⟨3, 4, 0⟩ : Point).x - (⟨0, 0, 0⟩ : Point).x) = (3 - 0 : ℚ) from rfl,
      show ((⟨3, 4, 0⟩ : Point).y - (⟨0, 0, 0⟩ : Point).y) = (4 - 0 : ℚ) from rfl,
      show ((⟨3, 4, 0⟩ : Point).z - (⟨0, 0, 0⟩ : Point).z) = (0 - 0 : ℚ) from rfl]
    rw [h25, Real.sqrt_sq (by norm_num)]
  · show atan2 ((4 - 0 : ℚ) : ℝ) ((3 - 0 : ℚ) : ℝ) = atan2 4 3
    norm_num

/-! C4: id uniqueness of wall creation.  `Viewer.addWall` draws ids from a
monotone counter, but `Document2D.drawWall` derives the id from
`Date.now()`: two walls created within the same millisecond collide. -/

/-- C4: two `Document2D.drawWall` calls that observe the same `Date.now()`
value (here both in millisecond 1000) produce walls with the same id
`wall_1000`, so the registry's ids are no longer pairwise distinct —
contradicting the claim that every creation assigns a distinct, stable id
even for walls created arbitrarily close together in time. -/
theorem C4_drawWall_id_collision :
    (Document2D.drawWall
        (Document2D.drawWall Document2D.initial 1000 ⟨0, 0, 0⟩ ⟨1, 0, 0⟩).1
        1000 ⟨2, 0, 0⟩ ⟨3, 0, 0⟩).2.id =
      (Document2D.drawWall Document2D.initial 1000 ⟨0, 0, 0⟩ ⟨1, 0, 0⟩).2.id ∧
    ¬ idsNodup (Document2D.drawWall
        (Document2D.drawWall Document2D.initial 1000 ⟨0, 0, 0⟩ ⟨1, 0, 0⟩).1
        1000 ⟨2, 0, 0⟩ ⟨3, 0, 0⟩).1.walls := by
  decide

/-! Counting lemmas for the selection/highlight invariants. -/

lemma countP_pointwise {α : Type} {p q : α → Bool} (l : List α)
    (h : ∀ a ∈ l, p a = q a) : l.countP p = l.countP q := by
  induction l with
  | nil => rfl
  | cons a l ih =>
    simp only [List.countP_cons]
    rw [h a (by simp), ih (fun b hb => h b (by simp [hb]))]

namespace Viewer

lemma countP_id_le_one_of_nodup (walls : List Wall) (h : idsNodup walls)
    (id : String) : walls.countP (fun w => w.id == id) ≤ 1 := by
  have h1 := List.nodup_iff_count_le_one.mp h id
  rwa [List.count_eq_countP, List.countP_map] at h1

lemma countP_selected_clearWallStates (st : ViewerState) :
    (clearWallStates st).walls.countP (fun w => w.selected) = 0 := by
  simp only [clearWallStates, List.countP_map]
  simp [List.countP_eq_zero, clearFlags]

lemma countP_highlighted_clearWallStates (st : ViewerState) :
    (clearWallStates st).walls.countP (fun w => w.highlighted) = 0 := by
  simp only [clearWallStates, List.countP_map]
  simp [List.countP_eq_zero, clearFlags]

lemma countP_selected_selectWall (st : ViewerState) (id : String) :
    (selectWall st id).walls.countP (fun w => w.selected)
      = st.walls.countP (fun w => w.id == id) := by
  simp only [selectWall, clearWallStates, List.map_map, List.countP_map]
  apply countP_pointwise
  intro w _
  by_cases h : w.id = id <;> simp [Function.comp, clearFlags, h]

lemma countP_highlighted_selectWall (st : ViewerState) (id : String) :
    (selectWall st id).walls.countP (fun w => w.highlighted) = 0 := by
  simp only [selectWall, clearWallStates, List.map_map, List.countP_map]
  rw [List.countP_eq_zero]
  intro w _
  by_cases h : w.id = id <;> simp [Function.comp, clearFlags, h]

lemma countP_highlighted_highlightWall (st : ViewerState) (id : String) :
    (highlightWall st id).walls.countP (fun w => w.highlighted)
      = st.walls.countP (fun w => w.id == id) := by
  simp only [highlightWall, List.countP_map]
  apply countP_pointwise
  intro w _
  by_cases h : w.id = id <;> cases hw : w.highlighted <;>
    simp [Function.comp, h, hw]

lemma countP_selected_highlightWall (st : ViewerState) (id : String) :
    (highlightWall st id).walls.countP (fun w => w.selected)
      = st.walls.countP (fun w => w.selected) := by
  simp only [highlightWall, List.countP_map]
  apply countP_pointwise
  intro w _
  by_cases h : w.id = id <;> cases hw : w.highlighted <;>
    simp [Function.comp, h, hw]

lemma countP_selected_addWall (st : ViewerState) (s e : Point) :
    (addWall st s e).1.walls.countP (fun w => w.selected)
      = st.walls.countP (fun w => w.selected) := by
  simp [addWall, List.countP_append]

lemma countP_highlighted_addWall (st : ViewerState) (s e : Point) :
    (addWall st s e).1.walls.countP (fun w => w.highlighted)
      = st.walls.countP (fun w => w.highlighted) := by
  simp [addWall, List.countP_append]

lemma countP_highlighted_clearHighlight (st : ViewerState) :
    (clearHighlight st).walls.countP (fun w => w.highlighted)
      ≤ st.walls.countP (fun w => w.highlighted) := by
  simp only [clearHighlight, List.countP_map]
  apply List.countP_mono_left
  intro w _ h
  cases hw : w.highlighted
  · simp [hw] at h
  · rfl

end Viewer

/-! C1: exclusive selection. -/

/-- C1: on a well-formed registry (distinct ids, at most one selected
wall), every registry mutation leaves at most one wall selected: a newly
added wall starts unselected, `selectWall` first clears `selected`
everywhere and then sets only walls carrying the target id,
`clearWallStates`, `deleteSelectedWalls` and `clearAllWalls` end with no
selected wall at all, and hover highlighting does not touch selection. -/
theorem C1_exclusive_selection (st : ViewerState) (id : String) (s e : Point)
    (hsel : atMostOneSelected st.walls) (hids : idsNodup st.walls) :
    (Viewer.addWall st s e).2.selected = false ∧
    atMostOneSelected (Viewer.addWall st s e).1.walls ∧
    atMostOneSelected (Viewer.selectWall st id).walls ∧
    (∀ w ∈ (Viewer.selectWall st id).walls, w.selected = true → w.id = id) ∧
    atMostOneSelected (Viewer.clearWallStates st).walls ∧
    atMostOneSelected (Viewer.deleteSelectedWalls st).walls ∧
    atMostOneSelected (Viewer.clearAllWalls st).walls ∧
    atMostOneSelected (Viewer.highlightWall st id).walls := by
  refine ⟨rfl, ?_, ?_, ?_, ?_, ?_, ?_, ?_⟩
  · unfold atMostOneSelected at hsel ⊢
    rwa [Viewer.countP_selected_addWall]
  · unfold atMostOneSelected
    rw [Viewer.countP_selected_selectWall]
    exact Viewer.countP_id_le_one_of_nodup st.walls hids id
  · intro w hw hsel'
    simp only [Viewer.selectWall, Viewer.clearWallStates, List.map_map,
      List.mem_map, Function.comp] at hw
    obtain ⟨w', _, rfl⟩ := hw
    by_cases h : w'.id = id
    · simp [Viewer.clearFlags, h]
    · simp [Viewer.clearFlags, h] at hsel'
  · unfold atMostOneSelected
    rw [Viewer.countP_selected_clearWallStates]
    omega
  · unfold atMostOneSelected
    rw [Viewer.deleteSelectedWalls, Viewer.countP_selected_clearWallStates]
    omega
  · unfold atMostOneSelected
    rw [Viewer.clearAllWalls, Viewer.countP_selected_clearWallStates]
    omega
  · unfold atMostOneSelected at hsel ⊢
    rwa [Viewer.countP_selected_highlightWall]

/-- C1 witness: the invariant bundle applied to a concrete one-wall
registry. -/
theorem C1_exclusive_selection_witness :
    atMostOneSelected Viewer.oneWallState.walls ∧
    idsNodup Viewer.oneWallState.walls ∧
    ((Viewer.addWall Viewer.oneWallState ⟨2, 0, 0⟩ ⟨3, 0, 0⟩).2.selected = false ∧
     atMostOneSelected (Viewer.addWall Viewer.oneWallState ⟨2, 0, 0⟩ ⟨3, 0, 0⟩).1.walls ∧
     atMostOneSelected (Viewer.selectWall Viewer.oneWallState "wall_0").walls ∧
     (∀ w ∈ (Viewer.selectWall Viewer.oneWallState "wall_0").walls,
        w.selected = true → w.id = "wall_0") ∧
     atMostOneSelected (Viewer.clearWallStates Viewer.oneWallState).walls ∧
     atMostOneSelected (Viewer.deleteSelectedWalls Viewer.oneWallState).walls ∧
     atMostOneSelected (Viewer.clearAllWalls Viewer.oneWallState).walls ∧
     atMostOneSelected (Viewer.highlightWall Viewer.oneWallState "wall_0").walls) :=
  ⟨by decide, by decide,
   C1_exclusive_selection Viewer.oneWallState "wall_0" ⟨2, 0, 0⟩ ⟨3, 0, 0⟩
     (by decide) (by decide)⟩

/-! C10: exclusive highlight (the implicit analogue of C1). -/

/-- C10: on a registry with distinct ids and at most one highlighted wall,
every operation leaves at most one wall highlighted: hover-highlighting a
wall clears the flag of every other wall, a newly added wall starts
unhighlighted, selection and the clearing operations leave no highlight at
all, and `clearHighlight` only ever drops highlights. -/
theorem C10_exclusive_highlight (st : ViewerState) (id : String) (s e : Point)
    (hids : idsNodup st.walls) (hhl : atMostOneHighlighted st.walls) :
    atMostOneHighlighted (Viewer.highlightWall st id).walls ∧
    (Viewer.addWall st s e).2.highlighted = false ∧
    atMostOneHighlighted (Viewer.addWall st s e).1.walls ∧
    atMostOneHighlighted (Viewer.selectWall st id).walls ∧
    atMostOneHighlighted (Viewer.clearWallStates st).walls ∧
    atMostOneHighlighted (Viewer.clearHighlight st).walls ∧
    atMostOneHighlighted (Viewer.deleteSelectedWalls st).walls ∧
    atMostOneHighlighted (Viewer.clearAllWalls st).walls := by
  refine ⟨?_, rfl, ?_, ?_, ?_, ?_, ?_, ?_⟩
  · unfold atMostOneHighlighted
    rw [Viewer.countP_highlighted_highlightWall]
    exact Viewer.countP_id_le_one_of_nodup st.walls hids id
  · unfold atMostOneHighlighted at hhl ⊢
    rwa [Viewer.countP_highlighted_addWall]
  · unfold atMostOneHighlighted
    rw [Viewer.countP_highlighted_selectWall]
    omega
  · unfold atMostOneHighlighted
    rw [Viewer.countP_highlighted_clearWallStates]
    omega
  · unfold atMostOneHighlighted at hhl ⊢
    exact le_trans (Viewer.countP_highlighted_clearHighlight st) hhl
  · unfold atMostOneHighlighted
    rw [Viewer.deleteSelectedWalls, Viewer.countP_highlighted_clearWallStates]
    omega
  · unfold atMostOneHighlighted
    rw [Viewer.clearAllWalls, Viewer.countP_highlighted_clearWallStates]
    omega

/-- C10 witness: the highlight invariant bundle applied to a concrete
one-wall registry. -/
theorem C10_exclusive_highlight_witness :
    idsNodup Viewer.oneWallState.walls ∧
    atMostOneHighlighted Viewer.oneWallState.walls ∧
    (atMostOneHighlighted (Viewer.highlightWall Viewer.oneWallState "wall_0").walls ∧
     (Viewer.addWall Viewer.oneWallState ⟨2, 0, 0⟩ ⟨3, 0, 0⟩).2.highlighted = false ∧
     atMostOneHighlighted (Viewer.addWall Viewer.oneWallState ⟨2, 0, 0⟩ ⟨3, 0, 0⟩).1.walls ∧
     atMostOneHighlighted (Viewer.selectWall Viewer.oneWallState "wall_0").walls ∧
     atMostOneHighlighted (Viewer.clearWallStates Viewer.oneWallState).walls ∧
     atMostOneHighlighted (Viewer.clearHighlight Viewer.oneWallState).walls ∧
     atMostOneHighlighted (Viewer.deleteSelectedWalls Viewer.oneWallState).walls ∧
     atMostOneHighlighted (Viewer.clearAllWalls Viewer.oneWallState).walls) :=
  ⟨by decide, by decide,
   C10_exclusive_highlight Viewer.oneWallState "wall_0" ⟨2, 0, 0⟩ ⟨3, 0, 0⟩
     (by decide) (by decide)⟩

/-! C5: a failed screen-to-world mapping ignores the pointer event. -/

/-- C5: when the coordinate mapper reports no world point the pointer
event is ignored.  The mapper can fail only in the 3D view — the ray/plane
intersection returns nothing for a ray parallel to the reference plane,
while the 2D orthographic unprojection always yields a point.  A
mouse-down in 2D drawing mode whose mapped intersection is `none` returns
the state unchanged (the `if (!intersection) return` guard): no wall is
created or updated, mode, `startPoint` and preview are untouched and no
error is raised; and a mouse-move in the 3D view (where the mapper can
actually fail) changes nothing at all. -/
theorem C5_no_intersection_ignored (st st3 : ViewerState) (button : Nat)
    (shiftKey : Bool) (wallHit : Option String) (i : Option Point) (u : Point)
    (h2D : st.is2D = true) (hMode : st.isDrawingMode = true)
    (h3D : st3.is2D = false) :
    Viewer.getIntersectionPoint false u none = none ∧
    Viewer.onMouseDown st button shiftKey none wallHit = st ∧
    Viewer.onMouseMove st3 i wallHit = st3 := by
  refine ⟨rfl, ?_, ?_⟩
  · by_cases hb : button = 0 <;>
      simp [Viewer.onMouseDown, h2D, hMode, hb]
  · simp [Viewer.onMouseMove, h3D]

/-- C5 witness: the guard evaluated on concrete 2D and 3D states. -/
theorem C5_no_intersection_ignored_witness :
    Viewer.midGestureState.is2D = true ∧
    Viewer.midGestureState.isDrawingMode = true ∧
    { Viewer.oneWallState with is2D := false }.is2D = false ∧
    (Viewer.getIntersectionPoint false ⟨7, 8, 9⟩ none = none ∧
     Viewer.onMouseDown Viewer.midGestureState 0 false none none =
       Viewer.midGestureState ∧
     Viewer.onMouseMove { Viewer.oneWallState with is2D := false } none none =
       { Viewer.oneWallState with is2D := false }) :=
  ⟨by decide, by decide, by decide,
   C5_no_intersection_ignored Viewer.midGestureState
     { Viewer.oneWallState with is2D := false } 0 false none none ⟨7, 8, 9⟩
     (by decide) (by decide) (by decide)⟩

/-! C6: leaving drawing mode cancels the in-progress gesture. -/

/-- C6: toggling away from drawing mode runs `cleanupDrawing`: the preview
visual is released, `startPoint` is cleared, the in-progress flag is reset
and the wall registry is untouched (no wall is committed by the
cancellation). -/
theorem C6_toggle_cancels_gesture (st : ViewerState)
    (hMode : st.isDrawingMode = true) :
    (Viewer.toggleDrawingMode st).isDrawingMode = false ∧
    (Viewer.toggleDrawingMode st).previewLine = none ∧
    (Viewer.toggleDrawingMode st).startPoint = none ∧
    (Viewer.toggleDrawingMode st).isDrawing = false ∧
    (Viewer.toggleDrawingMode st).walls = st.walls := by
  simp [Viewer.toggleDrawingMode, Viewer.cleanupDrawing, hMode]

/-- C6 witness: toggling out of drawing mode on a concrete mid-gesture
state. -/
theorem C6_toggle_cancels_gesture_witness :
    Viewer.midGestureState.isDrawingMode = true ∧
    ((Viewer.toggleDrawingMode Viewer.midGestureState).isDrawingMode = false ∧
     (Viewer.toggleDrawingMode Viewer.midGestureState).previewLine = none ∧
     (Viewer.toggleDrawingMode Viewer.midGestureState).startPoint = none ∧
     (Viewer.toggleDrawingMode Viewer.midGestureState).isDrawing = false ∧
     (Viewer.toggleDrawingMode Viewer.midGestureState).walls =
       Viewer.midGestureState.walls) :=
  ⟨by decide, C6_toggle_cancels_gesture Viewer.midGestureState (by decide)⟩

/-! C7: the shift modifier at commit time.  The repository commits walls
on two paths: `Viewer.onMouseDown` (second click) and
`CreateWallCommand.onMouseUp`.  With shift held both remain in an
in-progress drawing state anchored at the committed end point, but only
the Viewer creates the next preview inside the commit handler; the
command implementation nulls `previewWall` at commit and recreates it
only on the next mouse-move. -/

/-- The state of a `CreateWallCommand` instance (the `mouse` field is the
event-derived NDC position; the unprojection it feeds is external, so
handlers receive the unprojected world point directly). -/
structure CreateWallCommandState where
  doc : Doc2DState
  startPoint : Option Point
  endPoint : Option Point
  drawing : Bool
  previewWall : Option (Point × Point)
  isCreatingSeries : Bool
  lastEndPoint : Option Point

namespace CreateWallCommand

/-- Constructor state of `CreateWallCommand` over a given document. -/
def initial (doc : Doc2DState) : CreateWallCommandState :=
  { doc := doc, startPoint := none, endPoint := none, drawing := false,
    previewWall := none, isCreatingSeries := false, lastEndPoint := none }

/-- `CreateWallCommand.execute()`: draws the wall when both `startPoint`
and `endPoint` are set. -/
noncomputable def execute (st : CreateWallCommandState) (now : Nat) :
    CreateWallCommandState :=
  match st.startPoint, st.endPoint with
  | some sp, some ep => { st with doc := (Document2D.drawWall st.doc now sp ep).1 }
  | _, _ => st

/-- `CreateWallCommand.onMouseUp(e)`: on a left-button release during a
gesture, record the unprojected end point, remove the preview, commit via
`execute()`, and either chain the series from the end point (shift held)
or reset the gesture. -/
noncomputable def onMouseUp (st : CreateWallCommandState) (button : Nat)
    (shiftKey : Bool) (now : Nat) (endPoint : Point) : CreateWallCommandState :=
  if button ≠ 0 then st
  else
    match st.drawing, st.startPoint with
    | true, some _ =>
      let st1 := { st with endPoint := some endPoint, previewWall := none }
      let st2 := execute st1 now
      if shiftKey then
        { st2 with isCreatingSeries := true, lastEndPoint := some endPoint,
                   startPoint := some endPoint }
      else
        { st2 with isCreatingSeries := false, drawing := false,
                   startPoint := none, lastEndPoint := none }
    | _, _ => st

/-- `CreateWallCommand.onMouseMove(e)`: while drawing, rebuild the preview
between the gesture anchor (`lastEndPoint` during a series, else
`startPoint`) and the current unprojected point. -/
def onMouseMove (st : CreateWallCommandState) (currentPoint : Point) :
    CreateWallCommandState :=
  if st.drawing then
    match (if st.isCreatingSeries then st.lastEndPoint else st.startPoint) with
    | some sp => { st with previewWall := some (sp, currentPoint) }
    | none => st
  else st

/-- A concrete command state with a gesture in progress. -/
def cmdMidGesture : CreateWallCommandState :=
  { doc := Document2D.initial, startPoint := some ⟨0, 0, 0⟩, endPoint := none,
    drawing := true, previewWall := some (⟨0, 0, 0⟩, ⟨1, 1, 0⟩),
    isCreatingSeries := false, lastEndPoint := none }

end CreateWallCommand

/-- C7 counterexample: on the `CreateWallCommand.onMouseUp` commit path
cited by the claim, committing with shift held leaves the machine chaining
(still drawing, `startPoint` equal to the committed end point) but with NO
preview: `previewWall` is nulled at commit and not recreated inside the
handler, so the claim's clause that a new preview starting at that point
is created immediately is false at this concrete commit. -/
theorem C7_command_no_preview_at_commit :
    (CreateWallCommand.onMouseUp CreateWallCommand.cmdMidGesture 0 true 1000
      ⟨2, 0, 0⟩).drawing = true ∧
    (CreateWallCommand.onMouseUp CreateWallCommand.cmdMidGesture 0 true 1000
      ⟨2, 0, 0⟩).startPoint = some ⟨2, 0, 0⟩ ∧
    (CreateWallCommand.onMouseUp CreateWallCommand.cmdMidGesture 0 true 1000
      ⟨2, 0, 0⟩).isCreatingSeries = true ∧
    (CreateWallCommand.onMouseUp CreateWallCommand.cmdMidGesture 0 true 1000
      ⟨2, 0, 0⟩).previewWall = none := by
  decide

/-- C7 (amended): when a wall commit occurs with the continue-chain
modifier (shift) held, the state machine remains in an in-progress drawing
state with `startPoint` equal to the just-committed wall's end point; in
`Viewer.onMouseDown` a new preview starting at that point is created
immediately, while in `CreateWallCommand.onMouseUp` the preview is removed
at commit and the new preview anchored at that point appears only on the
next mouse-move.  Without the modifier, `startPoint` is discarded and the
machine returns to idle on both paths.  Both paths append exactly the
committed wall. -/
theorem C7_shift_chain_amended (st : ViewerState) (sp p : Point)
    (wallHit : Option String) (cmd : CreateWallCommandState)
    (csp cp q : Point) (now : Nat) (shiftKey : Bool)
    (h2D : st.is2D = true) (hMode : st.isDrawingMode = true)
    (hDrawing : st.isDrawing = true) (hsp : st.startPoint = some sp)
    (hcd : cmd.drawing = true) (hcsp : cmd.startPoint = some csp) :
    ((Viewer.onMouseDown st 0 shiftKey (some p) wallHit).walls
        = st.walls ++ [(Viewer.addWall st sp p).2] ∧
      (Viewer.addWall st sp p).2.«end» = p) ∧
    (shiftKey = true →
      (Viewer.onMouseDown st 0 shiftKey (some p) wallHit).isDrawing = true ∧
      (Viewer.onMouseDown st 0 shiftKey (some p) wallHit).startPoint = some p ∧
      (Viewer.onMouseDown st 0 shiftKey (some p) wallHit).previewLine
        = some (p, p)) ∧
    (shiftKey = false →
      (Viewer.onMouseDown st 0 shiftKey (some p) wallHit).isDrawing = false ∧
      (Viewer.onMouseDown st 0 shiftKey (some p) wallHit).startPoint = none ∧
      (Viewer.onMouseDown st 0 shiftKey (some p) wallHit).previewLine = none) ∧
    ((CreateWallCommand.onMouseUp cmd 0 shiftKey now cp).doc.walls
        = cmd.doc.walls ++ [(Document2D.drawWall cmd.doc now csp cp).2] ∧
      (Document2D.drawWall cmd.doc now csp cp).2.«end» = cp) ∧
    (shiftKey = true →
      (CreateWallCommand.onMouseUp cmd 0 shiftKey now cp).drawing = true ∧
      (CreateWallCommand.onMouseUp cmd 0 shiftKey now cp).isCreatingSeries = true ∧
      (CreateWallCommand.onMouseUp cmd 0 shiftKey now cp).startPoint = some cp ∧
      (CreateWallCommand.onMouseUp cmd 0 shiftKey now cp).lastEndPoint = some cp ∧
      (CreateWallCommand.onMouseUp cmd 0 shiftKey now cp).previewWall = none ∧
      (CreateWallCommand.onMouseMove
          (CreateWallCommand.onMouseUp cmd 0 shiftKey now cp) q).previewWall
        = some (cp, q)) ∧
    (shiftKey = false →
      (CreateWallCommand.onMouseUp cmd 0 shiftKey now cp).drawing = false ∧
      (CreateWallCommand.onMouseUp cmd 0 shiftKey now cp).startPoint = none ∧
      (CreateWallCommand.onMouseUp cmd 0 shiftKey now cp).isCreatingSeries = false ∧
      (CreateWallCommand.onMouseUp cmd 0 shiftKey now cp).lastEndPoint = none) := by
  cases shiftKey <;>
    simp [Viewer.onMouseDown, Viewer.addWall, h2D, hMode, hDrawing, hsp,
      CreateWallCommand.onMouseUp, CreateWallCommand.execute,
      CreateWallCommand.onMouseMove, Document2D.drawWall, hcd, hcsp]

/-- C7 witness: a chained commit (shift held) evaluated on concrete
mid-gesture states of both implementations. -/
theorem C7_shift_chain_amended_witness :
    Viewer.midGestureState.is2D = true ∧
    Viewer.midGestureState.isDrawingMode = true ∧
    Viewer.midGestureState.isDrawing = true ∧
    Viewer.midGestureState.startPoint = some ⟨1, 0, 0⟩ ∧
    CreateWallCommand.cmdMidGesture.drawing = true ∧
    CreateWallCommand.cmdMidGesture.startPoint = some ⟨0, 0, 0⟩ ∧
    (((Viewer.onMouseDown Viewer.midGestureState 0 true (some ⟨2, 2, 0⟩) none).walls
        = Viewer.midGestureState.walls ++
          [(Viewer.addWall Viewer.midGestureState ⟨1, 0, 0⟩ ⟨2, 2, 0⟩).2] ∧
      (Viewer.addWall Viewer.midGestureState ⟨1, 0, 0⟩ ⟨2, 2, 0⟩).2.«end» = ⟨2, 2, 0⟩) ∧
     (true = true →
      (Viewer.onMouseDown Viewer.midGestureState 0 true (some ⟨2, 2, 0⟩) none).isDrawing = true ∧
      (Viewer.onMouseDown Viewer.midGestureState 0 true (some ⟨2, 2, 0⟩) none).startPoint = some ⟨2, 2, 0⟩ ∧
      (Viewer.onMouseDown Viewer.midGestureState 0 true (some ⟨2, 2, 0⟩) none).previewLine
        = some (⟨2, 2, 0⟩, ⟨2, 2, 0⟩)) ∧
     (true = false →
      (Viewer.onMouseDown Viewer.midGestureState 0 true (some ⟨2, 2, 0⟩) none).isDrawing = false ∧
      (Viewer.onMouseDown Viewer.midGestureState 0 true (some ⟨2, 2, 0⟩) none).startPoint = none ∧
      (Viewer.onMouseDown Viewer.midGestureState 0 true (some ⟨2, 2, 0⟩) none).previewLine = none) ∧
     ((CreateWallCommand.onMouseUp CreateWallCommand.cmdMidGesture 0 true 1000 ⟨2, 0, 0⟩).doc.walls
        = CreateWallCommand.cmdMidGesture.doc.walls ++
          [(Document2D.drawWall CreateWallCommand.cmdMidGesture.doc 1000 ⟨0, 0, 0⟩ ⟨2, 0, 0⟩).2] ∧
      (Document2D.drawWall CreateWallCommand.cmdMidGesture.doc 1000 ⟨0, 0, 0⟩ ⟨2, 0, 0⟩).2.«end»
        = ⟨2, 0, 0⟩) ∧
     (true = true →
      (CreateWallCommand.onMouseUp CreateWallCommand.cmdMidGesture 0 true 1000 ⟨2, 0, 0⟩).drawing = true ∧
      (CreateWallCommand.onMouseUp CreateWallCommand.cmdMidGesture 0 true 1000 ⟨2, 0, 0⟩).isCreatingSeries = true ∧
      (CreateWallCommand.onMouseUp CreateWallCommand.cmdMidGesture 0 true 1000 ⟨2, 0, 0⟩).startPoint = some ⟨2, 0, 0⟩ ∧
      (CreateWallCommand.onMouseUp CreateWallCommand.cmdMidGesture 0 true 1000 ⟨2, 0, 0⟩).lastEndPoint = some ⟨2, 0, 0⟩ ∧
      (CreateWallCommand.onMouseUp CreateWallCommand.cmdMidGesture 0 true 1000 ⟨2, 0, 0⟩).previewWall = none ∧
      (CreateWallCommand.onMouseMove
          (CreateWallCommand.onMouseUp CreateWallCommand.cmdMidGesture 0 true 1000 ⟨2, 0, 0⟩)
          ⟨3, 1, 0⟩).previewWall = some (⟨2, 0, 0⟩, ⟨3, 1, 0⟩)) ∧
     (true = false →
      (CreateWallCommand.onMouseUp CreateWallCommand.cmdMidGesture 0 true 1000 ⟨2, 0, 0⟩).drawing = false ∧
      (CreateWallCommand.onMouseUp CreateWallCommand.cmdMidGesture 0 true 1000 ⟨2, 0, 0⟩).startPoint = none ∧
      (CreateWallCommand.onMouseUp CreateWallCommand.cmdMidGesture 0 true 1000 ⟨2, 0, 0⟩).isCreatingSeries = false ∧
      (CreateWallCommand.onMouseUp CreateWallCommand.cmdMidGesture 0 true 1000 ⟨2, 0, 0⟩).lastEndPoint = none)) :=
  ⟨by decide, by decide, by decide, by decide, by decide, by decide,
   C7_shift_chain_amended Viewer.midGestureState ⟨1, 0, 0⟩ ⟨2, 2, 0⟩ none
     CreateWallCommand.cmdMidGesture ⟨0, 0, 0⟩ ⟨2, 0, 0⟩ ⟨3, 1, 0⟩ 1000 true
     (by decide) (by decide) (by decide) (by decide) (by decide) (by decide)⟩

/-! C8: the add/remove round trip.  The source has no standalone
`removeWall(id)`; removal is realized by selecting the wall and invoking
`deleteSelectedWalls`, whose trailing `clearWallStates()` also clears the
`selected`/`highlighted` flags of every remaining wall. -/

namespace Viewer

/-- Removal of a wall by id as realized in the code: `selectWall(id)`
followed by `deleteSelectedWalls()`. -/
def removeWallById (st : ViewerState) (id : String) : ViewerState :=
  deleteSelectedWalls (selectWall st id)

lemma clearFlags_eq_self (w : Wall) (h1 : w.selected = false)
    (h2 : w.highlighted = false) : clearFlags w = w := by
  cases w
  simp_all [clearFlags]

lemma map_clearFlags_map_clearFlags (l : List Wall) :
    (l.map clearFlags).map clearFlags = l.map clearFlags := by
  rw [List.map_map]
  apply List.map_congr_left
  intro a _
  rfl

lemma map_clearFlags_eq_self (l : List Wall)
    (h : ∀ w ∈ l, w.selected = false ∧ w.highlighted = false) :
    l.map clearFlags = l := by
  conv_rhs => rw [← List.map_id l]
  apply List.map_congr_left
  intro a ha
  exact clearFlags_eq_self a (h a ha).1 (h a ha).2

lemma select_pipeline (l : List Wall) (id : String) (h : ∀ w ∈ l, w.id ≠ id) :
    (l.map clearFlags).map (fun w =>
        if w.id = id then { w with selected := true }
        else { w with selected := false })
      = l.map clearFlags := by
  rw [List.map_map]
  apply List.map_congr_left
  intro w hw
  have hne : (clearFlags w).id ≠ id := h w hw
  simp only [Function.comp]
  rw [if_neg hne]
  simp [clearFlags]

lemma filter_unselected_clearFlags (l : List Wall) :
    (l.map clearFlags).filter (fun w => !w.selected) = l.map clearFlags := by
  rw [List.filter_eq_self]
  intro w hw
  obtain ⟨w', _, rfl⟩ := List.mem_map.mp hw
  rfl

lemma removeWallById_walls (st : ViewerState) (id : String)
    (h : ∀ w ∈ st.walls, w.id ≠ id) :
    (removeWallById st id).walls = st.walls.map clearFlags := by
  show ((((st.walls.map clearFlags).map (fun w =>
      if w.id = id then { w with selected := true }
      else { w with selected := false })).filter
        (fun w => !w.selected)).map clearFlags)
    = st.walls.map clearFlags
  rw [select_pipeline st.walls id h, filter_unselected_clearFlags,
    map_clearFlags_map_clearFlags]

lemma removeWallById_addWall (st : ViewerState) (A B : Point)
    (hfresh : ∀ w ∈ st.walls, w.id ≠ mkId st.wallCounter) :
    (removeWallById (addWall st A B).1 (addWall st A B).2.id).walls
      = st.walls.map clearFlags := by
  show ((((st.walls ++ [(addWall st A B).2]).map clearFlags).map (fun w =>
      if w.id = (addWall st A B).2.id then { w with selected := true }
      else { w with selected := false })).filter
        (fun w => !w.selected)).map clearFlags
    = st.walls.map clearFlags
  rw [List.map_append, List.map_append, List.filter_append, List.map_append]
  rw [select_pipeline st.walls (addWall st A B).2.id hfresh]
  rw [filter_unselected_clearFlags, map_clearFlags_map_clearFlags]
  simp [addWall, clearFlags, mkId]

/-- The round-trip counterexample registry: its single wall is selected
before the add/remove pair runs. -/
noncomputable def roundtripPrior : ViewerState :=
  selectWall (addWall initialState ⟨0, 0, 0⟩ ⟨1, 0, 0⟩).1 "wall_0"

/-- The registry after `addWall` followed by removal of the returned id,
starting from `roundtripPrior`. -/
noncomputable def roundtripAfter : ViewerState :=
  removeWallById (addWall roundtripPrior ⟨2, 0, 0⟩ ⟨3, 0, 0⟩).1
    (addWall roundtripPrior ⟨2, 0, 0⟩ ⟨3, 0, 0⟩).2.id

end Viewer

/-- C8 counterexample: starting from a registry whose single wall
`wall_0` is selected, `addWall((2,0,0),(3,0,0))` followed by removal of
the returned id leaves `wall_0` deselected, so the registry content is
not restored exactly as the claim states. -/
theorem C8_roundtrip_counterexample :
    Viewer.roundtripAfter.walls.map (fun w => w.selected) = [false] ∧
    Viewer.roundtripPrior.walls.map (fun w => w.selected) = [true] ∧
    Viewer.roundtripAfter.walls ≠ Viewer.roundtripPrior.walls := by
  refine ⟨by decide, by decide, fun h => ?_⟩
  have h2 := congrArg (List.map (fun w => w.selected)) h
  rw [(by decide : Viewer.roundtripAfter.walls.map (fun w => w.selected)
        = [false]),
      (by decide : Viewer.roundtripPrior.walls.map (fun w => w.selected)
        = [true])] at h2
  exact absurd h2 (by decide)

/-- C8 (amended): `addWall(A, B)` followed by removal of the returned id
restores the registry's size, order, ids, endpoints, lengths and angles;
the `selected`/`highlighted` flags of the remaining walls are cleared to
`false` (so the registry is restored exactly whenever no wall was selected
or highlighted beforehand).  Removal of an id absent from the registry is
likewise a no-op up to the same flag clearing. -/
theorem C8_add_remove_roundtrip (st : ViewerState) (A B : Point)
    (badId : String)
    (hfresh : ∀ w ∈ st.walls, w.id ≠ Viewer.mkId st.wallCounter)
    (habsent : ∀ w ∈ st.walls, w.id ≠ badId) :
    (Viewer.removeWallById (Viewer.addWall st A B).1
        (Viewer.addWall st A B).2.id).walls = st.walls.map Viewer.clearFlags ∧
    (Viewer.removeWallById (Viewer.addWall st A B).1
        (Viewer.addWall st A B).2.id).walls.length = st.walls.length ∧
    ((∀ w ∈ st.walls, w.selected = false ∧ w.highlighted = false) →
      (Viewer.removeWallById (Viewer.addWall st A B).1
        (Viewer.addWall st A B).2.id).walls = st.walls) ∧
    (Viewer.removeWallById st badId).walls = st.walls.map Viewer.clearFlags := by
  refine ⟨Viewer.removeWallById_addWall st A B hfresh, ?_, ?_,
    Viewer.removeWallById_walls st badId habsent⟩
  · rw [Viewer.removeWallById_addWall st A B hfresh, List.length_map]
  · intro hflags
    rw [Viewer.removeWallById_addWall st A B hfresh,
      Viewer.map_clearFlags_eq_self st.walls hflags]

/-- C8 witness: the amended round trip evaluated on a concrete one-wall
registry with no flags set. -/
theorem C8_add_remove_roundtrip_witness :
    (∀ w ∈ Viewer.oneWallState.walls,
      w.id ≠ Viewer.mkId Viewer.oneWallState.wallCounter) ∧
    (∀ w ∈ Viewer.oneWallState.walls, w.id ≠ "nope") ∧
    ((Viewer.removeWallById (Viewer.addWall Viewer.oneWallState ⟨2, 0, 0⟩ ⟨3, 0, 0⟩).1
        (Viewer.addWall Viewer.oneWallState ⟨2, 0, 0⟩ ⟨3, 0, 0⟩).2.id).walls
        = Viewer.oneWallState.walls.map Viewer.clearFlags ∧
     (Viewer.removeWallById (Viewer.addWall Viewer.oneWallState ⟨2, 0, 0⟩ ⟨3, 0, 0⟩).1
        (Viewer.addWall Viewer.oneWallState ⟨2, 0, 0⟩ ⟨3, 0, 0⟩).2.id).walls.length
        = Viewer.oneWallState.walls.length ∧
     ((∀ w ∈ Viewer.oneWallState.walls,
        w.selected = false ∧ w.highlighted = false) →
      (Viewer.removeWallById (Viewer.addWall Viewer.oneWallState ⟨2, 0, 0⟩ ⟨3, 0, 0⟩).1
        (Viewer.addWall Viewer.oneWallState ⟨2, 0, 0⟩ ⟨3, 0, 0⟩).2.id).walls
        = Viewer.oneWallState.walls) ∧
     (Viewer.removeWallById Viewer.oneWallState "nope").walls
        = Viewer.oneWallState.walls.map Viewer.clearFlags) :=
  ⟨by decide, by decide,
   C8_add_remove_roundtrip Viewer.oneWallState ⟨2, 0, 0⟩ ⟨3, 0, 0⟩ "nope"
     (by decide) (by decide)⟩

/-! C9: `zoomExtend`'s 2D framing. -/

/-- A point lies inside a box. -/
def Box2.containsPt (b : Box2) (q : Vec2) : Prop :=
  b.min.x ≤ q.x ∧ q.x ≤ b.max.x ∧ b.min.y ≤ q.y ∧ q.y ≤ b.max.y

instance (b : Box2) (q : Vec2) : Decidable (b.containsPt q) := by
  unfold Box2.containsPt; infer_instance

lemma foldl_expand_shrinks (ps : List Vec2) :
    ∀ acc : Box2,
      (ps.foldl Box2.expandByPoint acc).min.x ≤ acc.min.x ∧
      (ps.foldl Box2.expandByPoint acc).min.y ≤ acc.min.y ∧
      acc.max.x ≤ (ps.foldl Box2.expandByPoint acc).max.x ∧
      acc.max.y ≤ (ps.foldl Box2.expandByPoint acc).max.y := by
  induction ps with
  | nil => intro acc; exact ⟨le_refl _, le_refl _, le_refl _, le_refl _⟩
  | cons a ps ih =>
    intro acc
    have h := ih (Box2.expandByPoint acc a)
    simp only [List.foldl_cons]
    exact ⟨le_trans h.1 (min_le_left _ _), le_trans h.2.1 (min_le_left _ _),
      le_trans (le_max_left _ _) h.2.2.1, le_trans (le_max_left _ _) h.2.2.2⟩

lemma foldl_expand_contains (ps : List Vec2) :
    ∀ (acc : Box2) (q : Vec2), q ∈ ps →
      (ps.foldl Box2.expandByPoint acc).containsPt q := by
  induction ps with
  | nil => intro acc q hq; cases hq
  | cons a ps ih =>
    intro acc q hq
    simp only [List.foldl_cons]
    cases List.mem_cons.mp hq with
    | inl h =>
      subst h
      have hs := foldl_expand_shrinks ps (Box2.expandByPoint acc q)
      exact ⟨le_trans hs.1 (min_le_right _ _), le_trans (le_max_right _ _) hs.2.2.1,
        le_trans hs.2.1 (min_le_right _ _), le_trans (le_max_right _ _) hs.2.2.2⟩
    | inr h => exact ih _ q h

lemma setFromPoints_contains (p : Vec2) (ps : List Vec2) (q : Vec2)
    (hq : q = p ∨ q ∈ ps) : (Box2.setFromPoints p ps).containsPt q := by
  cases hq with
  | inl h =>
    subst h
    have hs := foldl_expand_shrinks ps ⟨q, q⟩
    exact ⟨hs.1, hs.2.2.1, hs.2.1, hs.2.2.2⟩
  | inr h => exact foldl_expand_contains ps ⟨p, p⟩ q h

lemma expand_contains (b : Box2) (v : Vec2) (hvx : 0 ≤ v.x) (hvy : 0 ≤ v.y)
    (q : Vec2) (hq : b.containsPt q) : (b.expandByVector v).containsPt q := by
  obtain ⟨h1, h2, h3, h4⟩ := hq
  refine ⟨?_, ?_, ?_, ?_⟩ <;> dsimp only [Box2.expandByVector] <;> linarith

lemma mem_targetBox (walls : List Wall) (q : Vec2)
    (hq : q ∈ Viewer.wallEndpoints2D walls) :
    (Viewer.zoomTargetBox walls).containsPt q := by
  cases hE : Viewer.wallEndpoints2D walls with
  | nil => rw [hE] at hq; cases hq
  | cons p ps =>
    rw [hE] at hq
    have hbase : (Box2.setFromPoints p ps).containsPt q :=
      setFromPoints_contains p ps q (List.mem_cons.mp hq)
    have hp : (Box2.setFromPoints p ps).containsPt p :=
      setFromPoints_contains p ps p (Or.inl rfl)
    have hsx : 0 ≤ (Box2.setFromPoints p ps).max.x -
        (Box2.setFromPoints p ps).min.x := by
      obtain ⟨a1, a2, _, _⟩ := hp; linarith
    have hsy : 0 ≤ (Box2.setFromPoints p ps).max.y -
        (Box2.setFromPoints p ps).min.y := by
      obtain ⟨_, _, a3, a4⟩ := hp; linarith
    unfold Viewer.zoomTargetBox
    rw [hE]
    apply expand_contains
    · dsimp only [Box2.getSize]
      nlinarith
    · dsimp only [Box2.getSize]
      nlinarith
    · exact hbase

lemma zoomExtend2D_fits_box (walls : List Wall) (aspect : ℚ) (ha : 0 < aspect) :
    (Viewer.zoomExtend2D walls aspect).containsBox (Viewer.zoomTargetBox walls) ∧
    (Viewer.zoomExtend2D walls aspect).right - (Viewer.zoomExtend2D walls aspect).left
      = aspect * ((Viewer.zoomExtend2D walls aspect).top -
          (Viewer.zoomExtend2D walls aspect).bottom) := by
  have hane : aspect ≠ 0 := ne_of_gt ha
  unfold Viewer.zoomExtend2D
  simp only [Camera2D.containsBox, Box2.getCenter, Box2.getSize]
  split_ifs with hc
  · refine ⟨⟨?_, ?_, ?_, ?_⟩, ?_⟩ <;> try linarith
    field_simp
    ring
  · have hle : (Viewer.zoomTargetBox walls).max.x - (Viewer.zoomTargetBox walls).min.x
        ≤ ((Viewer.zoomTargetBox walls).max.y -
            (Viewer.zoomTargetBox walls).min.y) * aspect :=
      (div_le_iff₀ ha).mp (le_of_not_lt hc)
    refine ⟨⟨?_, ?_, ?_, ?_⟩, ?_⟩ <;> linarith

/-- C9: for a positive viewport aspect ratio, the camera frustum written by
`zoomExtend`'s 2D branch contains the whole padded target box — the
bounding box of all wall endpoints (or the 100 x 100 grid extent when the
registry is empty, giving the box from (-60,-60) to (60,60)) expanded by
10 percent of its size on each side — in particular every wall endpoint is
visible, and the frustum's width/height ratio equals the viewport aspect
ratio. -/
theorem C9_zoom_extend_fits (walls : List Wall) (aspect : ℚ)
    (ha : 0 < aspect) :
    (Viewer.zoomExtend2D walls aspect).containsBox (Viewer.zoomTargetBox walls) ∧
    ((Viewer.zoomExtend2D walls aspect).right - (Viewer.zoomExtend2D walls aspect).left
      = aspect * ((Viewer.zoomExtend2D walls aspect).top -
          (Viewer.zoomExtend2D walls aspect).bottom)) ∧
    (∀ w ∈ walls,
      (Viewer.zoomExtend2D walls aspect).containsXY w.start.x w.start.y ∧
      (Viewer.zoomExtend2D walls aspect).containsXY w.«end».x w.«end».y) ∧
    (walls = [] → Viewer.zoomTargetBox walls = ⟨⟨-60, -60⟩, ⟨60, 60⟩⟩) := by
  obtain ⟨hbox, hratio⟩ := zoomExtend2D_fits_box walls aspect ha
  refine ⟨hbox, hratio, ?_, ?_⟩
  · intro w hw
    have hs : (⟨w.start.x, w.start.y⟩ : Vec2) ∈ Viewer.wallEndpoints2D walls := by
      simp only [Viewer.wallEndpoints2D, List.mem_flatMap]
      exact ⟨w, hw, by simp⟩
    have he : (⟨w.«end».x, w.«end».y⟩ : Vec2) ∈ Viewer.wallEndpoints2D walls := by
      simp only [Viewer.wallEndpoints2D, List.mem_flatMap]
      exact ⟨w, hw, by simp⟩
    obtain ⟨c1, c2, c3, c4⟩ := mem_targetBox walls _ hs
    obtain ⟨d1, d2, d3, d4⟩ := mem_targetBox walls _ he
    obtain ⟨b1, b2, b3, b4⟩ := hbox
    exact ⟨⟨by linarith, by linarith, by linarith, by linarith⟩,
           by exact ⟨by linarith, by linarith, by linarith, by linarith⟩⟩
  · intro hE
    subst hE
    simp [Viewer.zoomTargetBox, Viewer.wallEndpoints2D, Box2.expandByVector,
      Box2.getSize]
    norm_num

/-- C9 witness: the framing theorem evaluated on the one-wall registry with
viewport aspect ratio 2. -/
theorem C9_zoom_extend_fits_witness :
    (0 : ℚ) < 2 ∧
    ((Viewer.zoomExtend2D Viewer.oneWallState.walls 2).containsBox
        (Viewer.zoomTargetBox Viewer.oneWallState.walls) ∧
     ((Viewer.zoomExtend2D Viewer.oneWallState.walls 2).right -
         (Viewer.zoomExtend2D Viewer.oneWallState.walls 2).left
       = 2 * ((Viewer.zoomExtend2D Viewer.oneWallState.walls 2).top -
           (Viewer.zoomExtend2D Viewer.oneWallState.walls 2).bottom)) ∧
     (∀ w ∈ Viewer.oneWallState.walls,
       (Viewer.zoomExtend2D Viewer.oneWallState.walls 2).containsXY w.start.x w.start.y ∧
       (Viewer.zoomExtend2D Viewer.oneWallState.walls 2).containsXY w.«end».x w.«end».y) ∧
     (Viewer.oneWallState.walls = [] →
       Viewer.zoomTargetBox Viewer.oneWallState.walls = ⟨⟨-60, -60⟩, ⟨60, 60⟩⟩)) :=
  ⟨by norm_num, C9_zoom_extend_fits Viewer.oneWallState.walls 2 (by norm_num)⟩
